import Mathlib

/-!
Verification of the query-parameter-driven data-fetch loop of the
product-catalog dashboard (IbnuJabir/Mirtech-assesment).

The development shallowly embeds:
* the browser URL query parameters (`URLSearchParams`) as a map from key
  to optional string value (percent-encoding is elided: the map stores
  decoded values, which is the level at which the client code operates);
* the client's URL-to-descriptor decoding (`ProductTable`'s
  `useQueryState` readers plus the `queryParams` memo);
* the client's URL write paths (`handlePaginationChange`,
  `handlePageSizeChange`, `handleSortingChange` in `ProductTable`;
  the debounced search commit effect, `handleCategorySelect` and
  `handleResetAll` in `DataTableToolbar`);
* the request-string construction of `fetchProducts`
  (`product-service.ts`);
* the debounce timer of the search input as a timed-event model;
* the paged list endpoint and the response cache, modelled from the
  spec where the implementation is not part of the frontend sources.

JavaScript numeric conversions are embedded exactly where they matter:
`Number.parseInt` (decimal radix path) may fail and yield `NaN`,
modelled as `Option Int` with `none` standing for `NaN`.
-/

namespace MirtechCatalog

/-! ## URL query parameter maps

`URLSearchParams` is modelled by its lookup semantics: a function from
key to the (decoded) value, `none` when the key is absent.  `set`
replaces the value of a key, `delete` removes it. -/

def Params : Type := String → Option String

def getParam (ps : Params) (k : String) : Option String := ps k

def emptyParams : Params := fun _ => none

def setParam (ps : Params) (k v : String) : Params :=
  fun k' => if k' = k then some v else ps k'

def deleteParam (ps : Params) (k : String) : Params :=
  fun k' => if k' = k then none else ps k'

/-! ## JavaScript number/string conversions

`Number.parseInt(s)` with the default radix (on inputs without a `0x`
prefix, the only ones this client ever produces or reads meaningfully):
leading ASCII whitespace is skipped, an optional sign is consumed, then
the longest prefix of decimal digits is read; if that prefix is empty
the result is `NaN` (`none` here).  `Number.prototype.toString()` for
the non-negative integers the client passes renders plain decimal. -/

def digitChar (d : Nat) : Char := Char.ofNat (48 + d)

def charDigitVal (c : Char) : Nat := c.toNat - 48

def isAsciiDigit (c : Char) : Bool := 48 ≤ c.toNat && c.toNat ≤ 57

def isJsSpace (c : Char) : Bool :=
  c = ' ' || c = '\t' || c = '\n' || c = '\r'

/-- Little-endian decimal digits of `n`, fuel-driven so that it reduces
definitionally (fuel `n` is always enough since `n / 10 < n`). -/
def natToDigitsAux : Nat → Nat → List Nat
  | 0, _ => []
  | _ + 1, 0 => []
  | fuel + 1, n + 1 => ((n + 1) % 10) :: natToDigitsAux fuel ((n + 1) / 10)

/-- Decimal rendering of a natural number, as JavaScript
`Number.prototype.toString()` produces for non-negative integers. -/
def natToString (n : Nat) : String :=
  if n = 0 then "0"
  else String.mk (((natToDigitsAux n n).reverse).map digitChar)

/-- Decimal rendering of a JavaScript number that may be `NaN`:
`NaN.toString()` is the literal string `"NaN"`. -/
def jsNumToString : Option Int → String
  | none => "NaN"
  | some i => if i < 0 then "-" ++ natToString i.natAbs else natToString i.natAbs

/-- The digit-prefix part of `Number.parseInt`: longest prefix of
decimal digits, `none` (`NaN`) when empty. -/
def parseNatDigits (cs : List Char) : Option Nat :=
  let ds := cs.takeWhile isAsciiDigit
  if ds.isEmpty then none
  else some (List.foldl (fun a c => a * 10 + charDigitVal c) 0 ds)

/-- JavaScript `Number.parseInt(s)` (decimal path), with `none` = `NaN`. -/
def jsParseInt (s : String) : Option Int :=
  match s.toList.dropWhile isJsSpace with
  | [] => none
  | c :: rest =>
    if c = '-' then (parseNatDigits rest).map (fun m => -(m : Int))
    else if c = '+' then (parseNatDigits rest).map (fun m => (m : Int))
    else (parseNatDigits (c :: rest)).map (fun m => (m : Int))

/-! ## The Query Descriptor

`queryParams` in `ProductTable` (`src/unnamed/part_002`): the object the
client hands to `fetchProducts`.  `page`/`limit` are JavaScript numbers
produced by `Number.parseInt` and may be `NaN` (`none`). -/

structure QueryDescriptor where
  page : Option Int
  limit : Option Int
  sort_by : String
  sort_order : String
  search : Option String
  category : Option String
deriving DecidableEq

/-! ## nuqs parsing of the category list

`parseAsArrayOf(parseAsString)`: the raw value is split on `","`
(an empty raw value parses to the empty list; `parseAsString` itself
never fails).  nuqs's un-escaping of percent-encoded separators inside
items is elided: the category vocabulary used by the UI contains
neither commas nor percent escapes. -/

def splitComma : List Char → List (List Char)
  | [] => [[]]
  | c :: rest =>
    if c = ',' then [] :: splitComma rest
    else
      match splitComma rest with
      | [] => [[c]]
      | g :: gs => (c :: g) :: gs

def parseAsArrayOfString (s : String) : List String :=
  if s = "" then [] else (splitComma s.toList).map String.mk

/-! ## Decoding the URL into the Query Descriptor

`ProductTable`: `useQueryState` with `parseAsString.withDefault` for
`page` (`"1"`), `limit` (`"10"`), `sort_by` (`"id"`), `sort_order`
(`"asc"`), `search` (`""`), `parseAsArrayOf(parseAsString).withDefault([])`
for `category`; then the `queryParams` memo applies `Number.parseInt`
to `page`/`limit`, `search || undefined`, and
`category.length > 0 ? category[0] : undefined`. -/

def decodeQuery (ps : Params) : QueryDescriptor :=
  let pageRaw := (getParam ps "page").getD "1"
  let limitRaw := (getParam ps "limit").getD "10"
  let searchRaw := (getParam ps "search").getD ""
  let cats := parseAsArrayOfString ((getParam ps "category").getD "")
  { page := jsParseInt pageRaw
    limit := jsParseInt limitRaw
    sort_by := (getParam ps "sort_by").getD "id"
    sort_order := (getParam ps "sort_order").getD "asc"
    search := if searchRaw = "" then none else some searchRaw
    category := match cats with | [] => none | c :: _ => some c }

/-! ## Client URL write paths

`DataTableToolbar` (full variant, `src/unnamed/part_001`; the simpler
variant in `data-table-toolbar.tsx` has the identical search path):
the URL-commit effect for the debounced search value, the category
facet toggle, and the reset-all button.  `ProductTable`
(`src/unnamed/part_002`): pagination, page-size and sort handlers.
`selectedCategory` local state is kept in sync with the URL by the
reconciliation effect, so it is read off the params here. -/

def currentSearchOf (ps : Params) : String := (getParam ps "search").getD ""

def currentCategoryOf (ps : Params) : String :=
  (getParam ps "category").getD ""

/-- The effect `if (debouncedSearchValue !== currentSearch) {...}`:
set `search` when the committed value is truthy (non-empty), delete it
otherwise; when the value equals the current URL value no navigation
happens at all. -/
def commitSearchUrl (ps : Params) (debounced : String) : Params :=
  if debounced = currentSearchOf ps then ps
  else if debounced = "" then deleteParam ps "search"
  else setParam ps "search" debounced

/-- `handleCategorySelect`: toggle the category value (delete when the
clicked value is the selected one, set it otherwise), then
`params.set("page", "1")`. -/
def handleCategorySelect (ps : Params) (value : String) : Params :=
  let ps1 :=
    if value = currentCategoryOf ps then deleteParam ps "category"
    else setParam ps "category" value
  setParam ps1 "page" "1"

/-- `handleResetAll`: rebuild the params keeping every entry whose key
is not one of `search`, `category`, `page`, then `params.set("page", "1")`. -/
def handleResetAll (ps : Params) : Params :=
  fun k =>
    if k = "search" ∨ k = "category" then none
    else if k = "page" then some "1"
    else ps k

/-- `handlePaginationChange`: `setPage(newPage.toString())`. -/
def handlePaginationChange (ps : Params) (newPage : Nat) : Params :=
  setParam ps "page" (natToString newPage)

/-- `handlePageSizeChange`: `setLimit(newPageSize.toString()); setPage("1")`. -/
def handlePageSizeChange (ps : Params) (newPageSize : Nat) : Params :=
  setParam (setParam ps "limit" (natToString newPageSize)) "page" "1"

/-- `handleSortingChange`: `setSortBy(columnId); setSortOrder(direction)`. -/
def handleSortingChange (ps : Params) (columnId direction : String) : Params :=
  setParam (setParam ps "sort_by" columnId) "sort_order" direction

/-! ## Single-field encode steps

Each constructor is one committed change funnelled through one of the
write paths above. -/

inductive EncodeStep where
  | setPage (n : Nat)
  | setPageSize (n : Nat)
  | setSort (columnId direction : String)
  | commitSearch (v : String)
  | selectCategory (v : String)
deriving DecidableEq

def applyStep (ps : Params) : EncodeStep → Params
  | .setPage n => handlePaginationChange ps n
  | .setPageSize n => handlePageSizeChange ps n
  | .setSort c d => handleSortingChange ps c d
  | .commitSearch v => commitSearchUrl ps v
  | .selectCategory v => handleCategorySelect ps v

def applySteps (ps : Params) : List EncodeStep → Params
  | [] => ps
  | s :: rest => applySteps (applyStep ps s) rest

/-- The descriptor-level meaning of each write path: what the step does
to the effective Query Descriptor (mirroring the code: only a category
change resets the page; each category click toggles the value). -/
def applyStepD (q : QueryDescriptor) : EncodeStep → QueryDescriptor
  | .setPage n => { q with page := some (n : Int) }
  | .setPageSize n => { q with limit := some (n : Int), page := some 1 }
  | .setSort c d => { q with sort_by := c, sort_order := d }
  | .commitSearch v => { q with search := if v = "" then none else some v }
  | .selectCategory v =>
    if some v = q.category then { q with category := none, page := some 1 }
    else { q with category := some v, page := some 1 }

def applyStepsD (q : QueryDescriptor) : List EncodeStep → QueryDescriptor
  | [] => q
  | s :: rest => applyStepsD (applyStepD q s) rest

/-- Well-formedness of a step's payload: category values come from the
facet vocabulary, which is non-empty and comma-free. -/
def stepWFb : EncodeStep → Bool
  | .selectCategory v => !(v = "") && !(v.toList.contains ',')
  | _ => true

/-- Invariant maintained on the URL state: a present category value is
non-empty and comma-free. -/
def ParamsWF (ps : Params) : Prop :=
  ∀ c, ps "category" = some c → c ≠ "" ∧ ',' ∉ c.toList

/-! ## Request construction

`fetchProducts` (`product-service.ts`): appends `page` and `limit`
unconditionally (`params.page.toString()`), and each of `sort_by`,
`sort_order`, `category`, `search` only when truthy (present and
non-empty). -/

def requestParams (q : QueryDescriptor) : List (String × String) :=
  [("page", jsNumToString q.page), ("limit", jsNumToString q.limit)]
    ++ (if q.sort_by = "" then [] else [("sort_by", q.sort_by)])
    ++ (if q.sort_order = "" then [] else [("sort_order", q.sort_order)])
    ++ (match q.category with
        | some c => if c = "" then [] else [("category", c)]
        | none => [])
    ++ (match q.search with
        | some s => if s = "" then [] else [("search", s)]
        | none => [])

/-! ## Debounce model

The toolbar's search debounce: every keystroke replaces the visible
value and schedules a 100 ms timer via `setTimeout`; the effect cleanup
(`clearTimeout`) cancels the pending timer when the next keystroke
arrives before it fires.  A keystroke's timer therefore fires exactly
when no later keystroke occurs strictly before `time + delay`.
`handleResetSearch` is a keystroke with value `""`. -/

structure Keystroke where
  value : String
  time : Nat
deriving DecidableEq

def debounceDelay : Nat := 100

/-- The debounced values that actually fire, in order: keystroke `k`
fires unless the next keystroke arrives before `k.time + delay`; the
final keystroke always fires. -/
def firedValues (delay : Nat) : List Keystroke → List String
  | [] => []
  | [k] => [k.value]
  | k1 :: k2 :: rest =>
    (if k2.time < k1.time + delay then [] else [k1.value])
      ++ firedValues delay (k2 :: rest)

/-- The value of the last keystroke (`""` for the empty list). -/
def lastKeyValue : List Keystroke → String
  | [] => ""
  | [k] => k.value
  | _ :: k :: rest => lastKeyValue (k :: rest)

/-- Consecutive keystrokes all closer than `delay` apart. -/
def gapsLt (delay : Nat) : List Keystroke → Prop
  | [] => True
  | [_] => True
  | k1 :: k2 :: rest => k2.time < k1.time + delay ∧ gapsLt delay (k2 :: rest)

/-- The URL-commit effect applied to the stream of fired debounced
values: a fired value navigates only when it differs from the current
URL search value, and then becomes the new current value. -/
def urlPropagations (current : String) : List String → List String
  | [] => []
  | v :: vs =>
    if v = current then urlPropagations current vs
    else v :: urlPropagations v vs

/-! ## Records and page results (`types/product.ts`) -/

structure Product where
  id : Nat
  name : String
  description : String
  price : Int
  category : String
  stock_quantity : Nat
  created_at : String
  updated_at : String
deriving DecidableEq

structure PaginatedProducts where
  data : List Product
  total_count : Nat
  page : Nat
  limit : Nat
deriving DecidableEq

/-! ## The paged list endpoint (modelled from the spec) -/

/-- A validated endpoint query: the six descriptor fields after the
endpoint's defaulting/validation (`page`, `limit` positive integers). -/
structure EndpointQuery where
  page : Nat
  limit : Nat
  sort_by : String
  sort_order : String
  search : Option String
  category : Option String
deriving DecidableEq

def lowerStr (s : String) : String := String.mk (s.toList.map Char.toLower)

def hasSubstr (needle : List Char) : List Char → Bool
  | [] => needle.isEmpty
  | c :: rest => List.isPrefixOf needle (c :: rest) || hasSubstr needle rest

/-- Case-insensitive containment of `frag` in `name`. -/
def containsCI (name frag : String) : Bool :=
  hasSubstr (lowerStr frag).toList (lowerStr name).toList

/-- Modelled from the spec: the endpoint's filter predicate — `category`,
when present, exact match; `search`, when present, case-insensitive
containment in the name; AND-composed (the backend implementation is
not among the frontend sources). -/
def matchesQuery (q : EndpointQuery) (p : Product) : Bool :=
  (match q.category with | some c => p.category = c | none => true)
    && (match q.search with | some s => containsCI p.name s | none => true)

/-- Modelled from the spec: comparison of two records under the
allowlisted `sort_by` field, `id` as tiebreaker ascending, direction
applied to the field key. -/
def sortFieldOrd (q : EndpointQuery) (a b : Product) : Ordering :=
  match q.sort_by with
  | "name" => compare a.name b.name
  | "price" => compare a.price b.price
  | "category" => compare a.category b.category
  | "stock_quantity" => compare a.stock_quantity b.stock_quantity
  | "created_at" => compare a.created_at b.created_at
  | "updated_at" => compare a.updated_at b.updated_at
  | _ => compare a.id b.id

def productLe (q : EndpointQuery) (a b : Product) : Bool :=
  match (if q.sort_order = "desc" then sortFieldOrd q b a else sortFieldOrd q a b) with
  | .lt => true
  | .gt => false
  | .eq => a.id ≤ b.id

/-- Modelled from the spec: the paged list endpoint (absent from the
frontend sources) — filter, then total-order, then window at offset
`(page-1)*limit` of length `limit`; `total_count` is the size of the
filtered set before windowing. -/
def listProducts (db : List Product) (q : EndpointQuery) : PaginatedProducts :=
  let filtered := db.filter (matchesQuery q)
  let sorted := List.insertionSort (fun a b => productLe q a b = true) filtered
  let windowed := (sorted.drop ((q.page - 1) * q.limit)).take q.limit
  { data := windowed
    total_count := filtered.length
    page := q.page
    limit := q.limit }

/-! ## The keyed response store (modelled from the spec)

`ProductTable` issues fetches through `useQuery` with
`queryKey: ["products", queryParams]`: the response store is keyed by
the descriptor that produced the response, and the rendered result is
the entry under the currently committed descriptor. -/

structure QueryStore where
  currentKey : QueryDescriptor
  entries : QueryDescriptor → Option PaginatedProducts

/-- Modelled from the spec: committing a new descriptor re-keys the
subscription to that descriptor. -/
def commitDescriptor (s : QueryStore) (k : QueryDescriptor) : QueryStore :=
  { s with currentKey := k }

/-- Modelled from the spec: a resolving fetch writes its result under
the descriptor that produced it, never under the current one. -/
def resolveFetch (s : QueryStore) (k : QueryDescriptor)
    (r : PaginatedProducts) : QueryStore :=
  { s with entries := fun k' => if k' = k then some r else s.entries k' }

def renderedResult (s : QueryStore) : Option PaginatedProducts :=
  s.entries s.currentKey

/-! ## Fetch failure surfacing -/

/-- The settled outcome of the HTTP fetch: either the promise rejected
(network failure, carrying the rejection message) or a response with
its `ok` flag and parsed body. -/
inductive FetchOutcome where
  | networkFailure (msg : String)
  | httpResponse (ok : Bool) (body : PaginatedProducts)
deriving DecidableEq

def isHttpOk : FetchOutcome → Bool
  | .httpResponse true _ => true
  | _ => false

/-- `fetchProducts` result: a network rejection propagates; a non-ok
response throws `Error("Failed to fetch products")`; an ok response
yields the body. -/
def fetchProductsResult : FetchOutcome → Except String PaginatedProducts
  | .networkFailure msg => .error msg
  | .httpResponse ok body =>
    if ok then .ok body else .error "Failed to fetch products"

inductive TableView where
  | loadingView (rows : Nat)
  | errorView (msg : String)
  | dataView (d : PaginatedProducts)
deriving DecidableEq

/-- `ProductTable`'s render once the query has settled: `isError`
renders the red error block with `Error loading products: ` followed by
`error.message`; otherwise the data table. -/
def renderSettled : Except String PaginatedProducts → TableView
  | .error msg => .errorView ("Error loading products: " ++ msg)
  | .ok d => .dataView d

/-! ## Concrete instances used to exercise the theorems -/

def psSortedPage3 : Params :=
  setParam (setParam (setParam emptyParams "page" "3") "sort_by" "price") "category" "books"

def psCategoryPair : Params := setParam emptyParams "category" "a,b"

def stepsSample : List EncodeStep :=
  [.setPage 3, .selectCategory "books", .commitSearch "phone",
   .setSort "price" "desc", .setPageSize 20]

def ksSample : List Keystroke := [⟨"a", 0⟩, ⟨"ab", 50⟩, ⟨"abc", 90⟩]

def mkSampleProduct (i : Nat) : Product :=
  { id := i, name := "item", description := "d", price := 5,
    category := "books", stock_quantity := 1,
    created_at := "t", updated_at := "t" }

def sampleDb : List Product := (List.range 105).map mkSampleProduct

def sampleQuery11 : EndpointQuery :=
  { page := 11, limit := 10, sort_by := "id", sort_order := "asc",
    search := none, category := none }

def sampleBody : PaginatedProducts :=
  { data := [mkSampleProduct 0], total_count := 1, page := 1, limit := 10 }

def sampleBodyB : PaginatedProducts :=
  { data := [], total_count := 0, page := 2, limit := 10 }

def descA : QueryDescriptor := decodeQuery emptyParams

def descB : QueryDescriptor := { decodeQuery emptyParams with page := some 2 }

def storeEmpty : QueryStore :=
  { currentKey := descA, entries := fun _ => none }

/-! ## Parameter-map lemmas -/

theorem getParam_set_self (ps : Params) (k v : String) :
    getParam (setParam ps k v) k = some v := by
  simp [getParam, setParam]

theorem getParam_set_of_ne (ps : Params) (k v k' : String) (h : k' ≠ k) :
    getParam (setParam ps k v) k' = getParam ps k' := by
  simp [getParam, setParam, h]

theorem getParam_delete_self (ps : Params) (k : String) :
    getParam (deleteParam ps k) k = none := by
  simp [getParam, deleteParam]

theorem getParam_delete_of_ne (ps : Params) (k k' : String) (h : k' ≠ k) :
    getParam (deleteParam ps k) k' = getParam ps k' := by
  simp [getParam, deleteParam, h]

/-! ## Decimal round-trip lemmas -/

theorem charDigitVal_digitChar : ∀ d < 10, charDigitVal (digitChar d) = d := by
  decide

theorem isAsciiDigit_digitChar : ∀ d < 10, isAsciiDigit (digitChar d) = true := by
  decide

theorem isJsSpace_digitChar : ∀ d < 10, isJsSpace (digitChar d) = false := by
  decide

theorem digitChar_ne_dash : ∀ d < 10, digitChar d ≠ '-' := by decide

theorem digitChar_ne_plus : ∀ d < 10, digitChar d ≠ '+' := by decide

theorem natToDigitsAux_eq_digits :
    ∀ (fuel n : Nat), n ≤ fuel → natToDigitsAux fuel n = Nat.digits 10 n := by
  intro fuel
  induction fuel with
  | zero =>
    intro n hn
    interval_cases n
    simp [natToDigitsAux]
  | succ fuel ih =>
    intro n hn
    match n with
    | 0 => simp [natToDigitsAux]
    | m + 1 =>
      have hdiv : (m + 1) / 10 ≤ fuel := by
        have := Nat.div_lt_self (Nat.succ_pos m) (by norm_num : (1 : Nat) < 10)
        omega
      rw [natToDigitsAux, ih _ hdiv,
        Nat.digits_def' (by norm_num : (1 : Nat) < 10) (Nat.succ_pos m)]

theorem takeWhile_eq_self_of_all {α : Type} (p : α → Bool) :
    ∀ cs : List α, (∀ c ∈ cs, p c = true) → cs.takeWhile p = cs := by
  intro cs
  induction cs with
  | nil => intro _; rfl
  | cons c rest ih =>
    intro h
    rw [List.takeWhile_cons, h c (List.mem_cons_self c rest),
      ih (fun x hx => h x (List.mem_cons_of_mem c hx))]
    simp

theorem foldl_rev_ofDigits (L : List Nat) :
    List.foldl (fun a d => a * 10 + d) 0 L.reverse = Nat.ofDigits 10 L := by
  induction L with
  | nil => simp [Nat.ofDigits_nil]
  | cons d L ih =>
    rw [List.reverse_cons, List.foldl_append, ih, Nat.ofDigits_cons]
    simp
    ring

theorem foldl_map_digitChar (L : List Nat) (h : ∀ d ∈ L, d < 10) (a : Nat) :
    List.foldl (fun acc c => acc * 10 + charDigitVal c) a (L.map digitChar) =
      List.foldl (fun acc d => acc * 10 + d) a L := by
  induction L generalizing a with
  | nil => rfl
  | cons d L ih =>
    rw [List.map_cons, List.foldl_cons, List.foldl_cons,
      charDigitVal_digitChar d (h d (List.mem_cons_self d L))]
    exact ih (fun x hx => h x (List.mem_cons_of_mem d hx)) _

theorem parseNatDigits_digits (n : Nat) (hn : n ≠ 0) :
    parseNatDigits (((Nat.digits 10 n).reverse).map digitChar) = some n := by
  have hlt : ∀ d ∈ (Nat.digits 10 n).reverse, d < 10 := by
    intro d hd
    exact Nat.digits_lt_base (by norm_num) (List.mem_reverse.mp hd)
  have hall : ∀ c ∈ ((Nat.digits 10 n).reverse).map digitChar, isAsciiDigit c = true := by
    intro c hc
    obtain ⟨d, hd, rfl⟩ := List.mem_map.mp hc
    exact isAsciiDigit_digitChar d (hlt d hd)
  have hne : ((Nat.digits 10 n).reverse).map digitChar ≠ [] := by
    simp [Nat.digits_ne_nil_iff_ne_zero.mpr hn]
  rw [parseNatDigits, takeWhile_eq_self_of_all _ _ hall]
  simp only [List.isEmpty_iff, hne, if_false]
  rw [foldl_map_digitChar _ hlt, foldl_rev_ofDigits, Nat.ofDigits_digits]

theorem jsParseInt_natToString (n : Nat) :
    jsParseInt (natToString n) = some (n : Int) := by
  by_cases h0 : n = 0
  · subst h0; decide
  · rw [natToString, if_neg h0, natToDigitsAux_eq_digits n n le_rfl]
    obtain ⟨d, ds, hds⟩ : ∃ d ds, (Nat.digits 10 n).reverse = d :: ds := by
      cases h : (Nat.digits 10 n).reverse with
      | nil =>
        exact absurd (List.reverse_eq_nil_iff.mp h)
          (Nat.digits_ne_nil_iff_ne_zero.mpr h0)
      | cons d ds => exact ⟨d, ds, rfl⟩
    have hd10 : d < 10 := by
      have : d ∈ (Nat.digits 10 n).reverse := by rw [hds]; exact List.mem_cons_self d ds
      exact Nat.digits_lt_base (by norm_num) (List.mem_reverse.mp this)
    have htl : (String.mk (((Nat.digits 10 n).reverse).map digitChar)).toList
        = ((Nat.digits 10 n).reverse).map digitChar := rfl
    rw [jsParseInt, htl, hds, List.map_cons, List.dropWhile_cons,
      isJsSpace_digitChar d hd10]
    simp only [Bool.false_eq_true, if_false]
    rw [if_neg (digitChar_ne_dash d hd10), if_neg (digitChar_ne_plus d hd10),
      ← List.map_cons, ← hds, parseNatDigits_digits n h0]
    simp

/-! ## Category parsing and decode characterization -/

theorem jsParseInt_one : jsParseInt "1" = some 1 := by decide

theorem splitComma_no_comma :
    ∀ cs : List Char, ',' ∉ cs → splitComma cs = [cs] := by
  intro cs
  induction cs with
  | nil => intro _; rfl
  | cons c rest ih =>
    intro h
    rw [List.mem_cons, not_or] at h
    rw [splitComma, if_neg (fun hc => h.1 hc.symm), ih h.2]

theorem parseAsArrayOfString_single (s : String) (h1 : s ≠ "")
    (h2 : ',' ∉ s.toList) :
    parseAsArrayOfString s = [s] := by
  rw [parseAsArrayOfString, if_neg h1, splitComma_no_comma _ h2]
  rfl

theorem decode_category_of_WF (ps : Params) (h : ParamsWF ps) :
    (decodeQuery ps).category =
      (if currentCategoryOf ps = "" then none else some (currentCategoryOf ps)) := by
  cases hc : ps "category" with
  | none =>
    simp [decodeQuery, currentCategoryOf, getParam, hc, parseAsArrayOfString]
  | some c =>
    obtain ⟨hc1, hc2⟩ := h c hc
    simp [decodeQuery, currentCategoryOf, getParam, hc,
      parseAsArrayOfString_single c hc1 hc2, hc1]

/-! ## Well-formedness preservation -/

theorem ParamsWF_set_of_ne (ps : Params) (k v : String)
    (h : ("category" : String) ≠ k) (hwf : ParamsWF ps) :
    ParamsWF (setParam ps k v) := by
  intro c hc
  apply hwf
  simpa [setParam, h] using hc

theorem ParamsWF_delete (ps : Params) (k : String) (hwf : ParamsWF ps) :
    ParamsWF (deleteParam ps k) := by
  intro c hc
  by_cases h : ("category" : String) = k
  · simp [deleteParam, h] at hc
  · exact hwf c (by simpa [deleteParam, h] using hc)

theorem ParamsWF_set_category (ps : Params) (v : String) (h1 : v ≠ "")
    (h2 : ',' ∉ v.toList) :
    ParamsWF (setParam ps "category" v) := by
  intro c hc
  simp [setParam] at hc
  subst hc
  exact ⟨h1, h2⟩

theorem ParamsWF_empty : ParamsWF emptyParams := by
  intro c hc
  simp [emptyParams] at hc

/-! ## Componentwise equality of descriptors -/

theorem queryDescriptorExt {a b : QueryDescriptor} (h1 : a.page = b.page)
    (h2 : a.limit = b.limit) (h3 : a.sort_by = b.sort_by)
    (h4 : a.sort_order = b.sort_order) (h5 : a.search = b.search)
    (h6 : a.category = b.category) : a = b := by
  cases a
  cases b
  simp_all

/-! ## One encode step commutes with decoding -/

theorem decode_applyStep_selectCategory_aux (ps : Params) (v : String)
    (hwf : ParamsWF ps) (h1 : v ≠ "") (h2 : ',' ∉ v.toList) :
    decodeQuery (applyStep ps (.selectCategory v)) =
      applyStepD (decodeQuery ps) (.selectCategory v) := by
  by_cases hsel : v = currentCategoryOf ps
  · have hcat : (decodeQuery ps).category = some v := by
      rw [decode_category_of_WF ps hwf, if_neg (by rw [← hsel]; exact h1), ← hsel]
    have hRHS : applyStepD (decodeQuery ps) (.selectCategory v)
        = { decodeQuery ps with category := none, page := some 1 } := by
      simp [applyStepD, hcat]
    rw [hRHS]
    simp [applyStep, handleCategorySelect, hsel, decodeQuery,
      getParam_set_self, getParam_set_of_ne, getParam_delete_self,
      getParam_delete_of_ne, jsParseInt_one, parseAsArrayOfString]
  · have hcat : ¬ (some v = (decodeQuery ps).category) := by
      rw [decode_category_of_WF ps hwf]
      by_cases hcur : currentCategoryOf ps = ""
      · simp [hcur]
      · rw [if_neg hcur]
        intro hvc
        exact hsel (Option.some.inj hvc)
    have hRHS : applyStepD (decodeQuery ps) (.selectCategory v)
        = { decodeQuery ps with category := some v, page := some 1 } := by
      simp [applyStepD, hcat]
    rw [hRHS]
    simp [applyStep, handleCategorySelect, hsel, decodeQuery,
      getParam_set_self, getParam_set_of_ne, jsParseInt_one,
      parseAsArrayOfString_single v h1 h2, h1]

theorem decode_applyStep (ps : Params) (s : EncodeStep) (hwf : ParamsWF ps)
    (hs : stepWFb s = true) :
    decodeQuery (applyStep ps s) = applyStepD (decodeQuery ps) s := by
  cases s with
  | setPage n =>
    simp [applyStep, handlePaginationChange, applyStepD, decodeQuery,
      getParam_set_self, getParam_set_of_ne, jsParseInt_natToString]
  | setPageSize n =>
    simp [applyStep, handlePageSizeChange, applyStepD, decodeQuery,
      getParam_set_self, getParam_set_of_ne, jsParseInt_natToString,
      jsParseInt_one]
  | setSort c d =>
    simp [applyStep, handleSortingChange, applyStepD, decodeQuery,
      getParam_set_self, getParam_set_of_ne]
  | commitSearch v =>
    by_cases hcur : v = currentSearchOf ps
    · have hstep : applyStep ps (.commitSearch v) = ps := by
        simp [applyStep, commitSearchUrl, hcur]
      rw [hstep, hcur]
      rfl
    · by_cases hv : v = ""
      · subst hv
        simp [applyStep, commitSearchUrl, hcur, applyStepD, decodeQuery,
          getParam_delete_self, getParam_delete_of_ne]
      · simp [applyStep, commitSearchUrl, hcur, hv, applyStepD, decodeQuery,
          getParam_set_self, getParam_set_of_ne]
  | selectCategory v =>
    have hv : v ≠ "" ∧ ',' ∉ v.toList := by
      simp [stepWFb] at hs
      exact ⟨hs.1, by simpa using hs.2⟩
    rw [decode_applyStep_selectCategory_aux ps v hwf hv.1 hv.2]

/-! ## Well-formedness through the encode steps, and the fold -/

theorem ParamsWF_applyStep (ps : Params) (s : EncodeStep) (hwf : ParamsWF ps)
    (hs : stepWFb s = true) : ParamsWF (applyStep ps s) := by
  cases s with
  | setPage n => exact ParamsWF_set_of_ne _ _ _ (by decide) hwf
  | setPageSize n =>
    exact ParamsWF_set_of_ne _ _ _ (by decide)
      (ParamsWF_set_of_ne _ _ _ (by decide) hwf)
  | setSort c d =>
    exact ParamsWF_set_of_ne _ _ _ (by decide)
      (ParamsWF_set_of_ne _ _ _ (by decide) hwf)
  | commitSearch v =>
    show ParamsWF (commitSearchUrl ps v)
    by_cases h1 : v = currentSearchOf ps
    · rw [commitSearchUrl, if_pos h1]
      exact hwf
    · by_cases h2 : v = ""
      · rw [commitSearchUrl, if_neg h1, if_pos h2]
        exact ParamsWF_delete _ _ hwf
      · rw [commitSearchUrl, if_neg h1, if_neg h2]
        exact ParamsWF_set_of_ne _ _ _ (by decide) hwf
  | selectCategory v =>
    have hv : v ≠ "" ∧ ',' ∉ v.toList := by
      simp [stepWFb] at hs
      exact ⟨hs.1, by simpa using hs.2⟩
    show ParamsWF (handleCategorySelect ps v)
    rw [handleCategorySelect]
    apply ParamsWF_set_of_ne _ _ _ (by decide)
    by_cases hsel : v = currentCategoryOf ps
    · rw [if_pos hsel]
      exact ParamsWF_delete _ _ hwf
    · rw [if_neg hsel]
      exact ParamsWF_set_category _ _ hv.1 hv.2

theorem decode_applySteps (steps : List EncodeStep) :
    ∀ ps : Params, ParamsWF ps → steps.all stepWFb = true →
      decodeQuery (applySteps ps steps) = applyStepsD (decodeQuery ps) steps := by
  induction steps with
  | nil => intro ps _ _; rfl
  | cons s rest ih =>
    intro ps hwf hall
    rw [List.all_cons, Bool.and_eq_true] at hall
    rw [applySteps, applyStepsD, ← decode_applyStep ps s hwf hall.1]
    exact ih _ (ParamsWF_applyStep ps s hwf hall.1) hall.2

/-! ## Debounce lemmas -/

theorem firedValues_of_gapsLt (delay : Nat) :
    ∀ ks : List Keystroke, ks ≠ [] → gapsLt delay ks →
      firedValues delay ks = [lastKeyValue ks] := by
  intro ks
  induction ks with
  | nil => intro h _; exact absurd rfl h
  | cons k rest ih =>
    intro _ hg
    cases rest with
    | nil => rfl
    | cons k2 rest2 =>
      have hg' : k2.time < k.time + delay ∧ gapsLt delay (k2 :: rest2) := hg
      show (if k2.time < k.time + delay then [] else [k.value])
          ++ firedValues delay (k2 :: rest2) = [lastKeyValue (k :: k2 :: rest2)]
      rw [if_pos hg'.1, List.nil_append,
        ih (List.cons_ne_nil k2 rest2) hg'.2]
      rfl

/-! ## Request filtering helper -/

theorem requestParams_filter_category (q : QueryDescriptor) :
    (requestParams q).filter (fun e => e.1 = "category") =
      (match q.category with
       | some c => if c = "" then [] else [("category", c)]
       | none => []) := by
  cases hc : q.category with
  | none =>
    simp only [requestParams, hc, List.filter_append]
    by_cases h1 : q.sort_by = "" <;> by_cases h2 : q.sort_order = "" <;>
      cases hs : q.search <;>
      simp [h1, h2, List.filter]
  | some c =>
    by_cases hce : c = ""
    · simp only [requestParams, hc, hce, List.filter_append]
      by_cases h1 : q.sort_by = "" <;> by_cases h2 : q.sort_order = "" <;>
        cases hs : q.search <;>
        simp [h1, h2, List.filter]
    · simp only [requestParams, hc, List.filter_append]
      rw [if_neg hce]
      by_cases h1 : q.sort_by = "" <;> by_cases h2 : q.sort_order = "" <;>
        cases hs : q.search <;>
        simp [h1, h2, hce, List.filter]

/-! ## Claim theorems -/

/-- C1: the claim says every committed change to search or category
resets `page` to 1.  The code does not: the debounced search commit
effect only sets/deletes the `search` parameter and leaves `page`
untouched (only `handleCategorySelect` performs `params.set("page", "1")`).
Evaluating the search-commit write path at URL state `page=5` with the
committed search value `"phone"`: the search parameter is written, yet
`page` remains `"5"`. -/
theorem searchCommit_keeps_prior_page :
    getParam (commitSearchUrl (setParam emptyParams "page" "5") "phone") "page"
      = some "5" ∧
    getParam (commitSearchUrl (setParam emptyParams "page" "5") "phone") "search"
      = some "phone" := by
  decide

/-- C2: the claim says a non-numeric `page`/`limit` URL value decodes to
the default (1 resp. 10).  The code instead feeds the raw string to
`Number.parseInt`, obtaining `NaN` (`none`), and `fetchProducts` then
serializes it as the literal `page=NaN` in the request — no fallback to
the default and a non-numeric value in the descriptor. -/
theorem decode_nonNumeric_page_yields_NaN :
    (decodeQuery (setParam emptyParams "page" "abc")).page = none ∧
    (decodeQuery (setParam emptyParams "limit" "x9")).limit = none ∧
    requestParams (decodeQuery (setParam emptyParams "page" "abc")) =
      [("page", "NaN"), ("limit", "10"), ("sort_by", "id"), ("sort_order", "asc")] := by
  decide

/-- C3: for any non-empty sequence of keystrokes whose consecutive gaps
are all shorter than the 100 ms quiet period, exactly one value — the
last one typed — survives the cancel-and-restart timer discipline and
is propagated to the URL layer (provided it differs from the current
URL search value; clearing the input is the keystroke `""` and follows
the same path). -/
theorem debounce_coalesces_to_last (ks : List Keystroke) (current : String)
    (h1 : ks ≠ []) (h2 : gapsLt debounceDelay ks)
    (h3 : lastKeyValue ks ≠ current) :
    urlPropagations current (firedValues debounceDelay ks) = [lastKeyValue ks] := by
  rw [firedValues_of_gapsLt _ _ h1 h2]
  simp [urlPropagations, h3]

theorem debounce_coalesces_to_last_app :
    ksSample ≠ [] ∧ gapsLt debounceDelay ksSample ∧ lastKeyValue ksSample ≠ "" ∧
      urlPropagations "" (firedValues debounceDelay ksSample)
        = [lastKeyValue ksSample] :=
  ⟨by decide, ⟨by decide, by decide, trivial⟩, by decide,
    debounce_coalesces_to_last ksSample "" (by decide)
      ⟨by decide, by decide, trivial⟩ (by decide)⟩

/-- C4: any sequence of single-field encode steps applied to the default
(empty) URL state round-trips — decoding the resulting URL state yields
exactly the descriptor obtained by applying the descriptor-level meaning
of each step to the default descriptor (default values are elided from
the URL and restored by decoding), provided category values are
non-empty and comma-free as the facet vocabulary guarantees. -/
theorem encode_decode_round_trip (steps : List EncodeStep)
    (h : steps.all stepWFb = true) :
    decodeQuery (applySteps emptyParams steps)
      = applyStepsD (decodeQuery emptyParams) steps :=
  decode_applySteps steps emptyParams ParamsWF_empty h

theorem encode_decode_round_trip_app :
    stepsSample.all stepWFb = true ∧
      decodeQuery (applySteps emptyParams stepsSample)
        = applyStepsD (decodeQuery emptyParams) stepsSample :=
  ⟨by decide, encode_decode_round_trip stepsSample (by decide)⟩

/-- C5: a committed sort change writes only `sort_by` and `sort_order`:
the `page` parameter — and every parameter other than the two sort
keys — is unchanged. -/
theorem sortChange_preserves_other_params (ps : Params)
    (columnId direction : String) :
    getParam (handleSortingChange ps columnId direction) "page"
      = getParam ps "page" ∧
    ∀ k, k ≠ "sort_by" → k ≠ "sort_order" →
      getParam (handleSortingChange ps columnId direction) k = getParam ps k := by
  constructor
  · rw [handleSortingChange, getParam_set_of_ne _ _ _ _ (by decide),
      getParam_set_of_ne _ _ _ _ (by decide)]
  · intro k hk1 hk2
    rw [handleSortingChange, getParam_set_of_ne _ _ _ _ hk2,
      getParam_set_of_ne _ _ _ _ hk1]

theorem sortChange_preserves_other_params_app :
    ("page" : String) ≠ "sort_by" ∧ ("page" : String) ≠ "sort_order" ∧
      getParam (handleSortingChange psSortedPage3 "name" "desc") "page"
        = getParam psSortedPage3 "page" :=
  ⟨by decide, by decide,
    (sortChange_preserves_other_params psSortedPage3 "name" "desc").2 "page"
      (by decide) (by decide)⟩

/-- C6: the reset-all action clears `search` and `category`, sets `page`
to `"1"`, and leaves every other query parameter (for example `sort_by`
and `sort_order`) with its previous value. -/
theorem resetAll_clears_filters_preserves_rest (ps : Params) :
    getParam (handleResetAll ps) "search" = none ∧
    getParam (handleResetAll ps) "category" = none ∧
    getParam (handleResetAll ps) "page" = some "1" ∧
    ∀ k, k ≠ "search" → k ≠ "category" → k ≠ "page" →
      getParam (handleResetAll ps) k = getParam ps k := by
  refine ⟨by simp [handleResetAll, getParam],
    by simp [handleResetAll, getParam],
    by simp [handleResetAll, getParam], ?_⟩
  intro k h1 h2 h3
  simp [handleResetAll, getParam, h1, h2, h3]

theorem resetAll_clears_filters_preserves_rest_app :
    ("sort_by" : String) ≠ "search" ∧ ("sort_by" : String) ≠ "category" ∧
      ("sort_by" : String) ≠ "page" ∧
      getParam (handleResetAll psSortedPage3) "sort_by"
        = getParam psSortedPage3 "sort_by" :=
  ⟨by decide, by decide, by decide,
    (resetAll_clears_filters_preserves_rest psSortedPage3).2.2.2 "sort_by"
      (by decide) (by decide) (by decide)⟩

/-- C7: in the endpoint model, `total_count` is the size of the filtered
set ignoring the page window, and the returned page's length is
`min limit (total_count - (page-1)*limit)`, the truncated natural
subtraction providing the clamp at 0. -/
theorem listProducts_count_and_window (db : List Product) (q : EndpointQuery) :
    (listProducts db q).total_count = (db.filter (matchesQuery q)).length ∧
    (listProducts db q).data.length =
      min q.limit ((listProducts db q).total_count - (q.page - 1) * q.limit) := by
  constructor
  · rfl
  · simp only [listProducts]
    rw [List.length_take, List.length_drop, List.length_insertionSort]

/-- The pagination-arithmetic instances from the spec, evaluated on a
105-record store with `limit = 10`: page 11 returns 5 records and
page 12 returns 0. -/
theorem listProducts_sample_window_sizes :
    (listProducts sampleDb sampleQuery11).data.length = 5 ∧
    (listProducts sampleDb { sampleQuery11 with page := 12 }).data.length = 0 ∧
    (listProducts sampleDb sampleQuery11).total_count = 105 := by
  decide

/-- C8: with responses stored under the descriptor that produced them
and the rendered result read under the last-committed descriptor,
committing A then B and then resolving B before the late A leaves the
rendered state at B's result — A's late arrival cannot overwrite it. -/
theorem staleResponse_suppressed (s : QueryStore) (A B : QueryDescriptor)
    (rA rB : PaginatedProducts) (hAB : A ≠ B) :
    renderedResult (resolveFetch (resolveFetch
      (commitDescriptor (commitDescriptor s A) B) B rB) A rA) = some rB := by
  simp [renderedResult, resolveFetch, commitDescriptor, Ne.symm hAB]

theorem staleResponse_suppressed_app :
    descA ≠ descB ∧
      renderedResult (resolveFetch (resolveFetch
        (commitDescriptor (commitDescriptor storeEmpty descA) descB)
        descB sampleBodyB) descA sampleBody) = some sampleBodyB :=
  ⟨by decide,
    staleResponse_suppressed storeEmpty descA descB sampleBody sampleBodyB
      (by decide)⟩

/-- C9: whenever the fetch fails (network rejection or non-2xx
response), `fetchProducts` produces an error whose message is rendered
in the visible error block (`Error loading products: ` + message), and
the settled render is never the loading skeleton. -/
theorem fetchFailure_renders_error (o : FetchOutcome) (h : isHttpOk o = false) :
    ∃ msg, fetchProductsResult o = .error msg ∧
      renderSettled (fetchProductsResult o)
        = .errorView ("Error loading products: " ++ msg) ∧
      ∀ n, renderSettled (fetchProductsResult o) ≠ .loadingView n := by
  cases o with
  | networkFailure msg =>
    exact ⟨msg, rfl, rfl, fun n => by simp [fetchProductsResult, renderSettled]⟩
  | httpResponse ok body =>
    cases ok with
    | true => simp [isHttpOk] at h
    | false =>
      exact ⟨"Failed to fetch products", rfl, rfl,
        fun n => by simp [fetchProductsResult, renderSettled]⟩

theorem fetchFailure_renders_error_app :
    isHttpOk (.httpResponse false sampleBody) = false ∧
      ∃ msg, fetchProductsResult (.httpResponse false sampleBody) = .error msg ∧
        renderSettled (fetchProductsResult (.httpResponse false sampleBody))
          = .errorView ("Error loading products: " ++ msg) ∧
        ∀ n, renderSettled (fetchProductsResult (.httpResponse false sampleBody))
          ≠ .loadingView n :=
  ⟨by decide, fetchFailure_renders_error (.httpResponse false sampleBody) (by decide)⟩

/-- C10: the category URL parameter is parsed as a comma-separated
list; when the parsed list is non-empty (and its first value non-empty,
as all facet values are), exactly its first value reaches the request,
and when the list is empty the request carries no category parameter. -/
theorem category_first_value_only (ps : Params) :
    (∀ c rest, parseAsArrayOfString ((getParam ps "category").getD "") = c :: rest →
      c ≠ "" →
      (requestParams (decodeQuery ps)).filter (fun e => e.1 = "category")
        = [("category", c)]) ∧
    (parseAsArrayOfString ((getParam ps "category").getD "") = [] →
      (requestParams (decodeQuery ps)).filter (fun e => e.1 = "category") = []) := by
  constructor
  · intro c rest hparse hc
    have hcat : (decodeQuery ps).category = some c := by
      simp [decodeQuery, hparse]
    rw [requestParams_filter_category, hcat]
    simp [hc]
  · intro hparse
    have hcat : (decodeQuery ps).category = none := by
      simp [decodeQuery, hparse]
    rw [requestParams_filter_category, hcat]

theorem category_first_value_only_app :
    parseAsArrayOfString ((getParam psCategoryPair "category").getD "")
      = "a" :: ["b"] ∧
    ("a" : String) ≠ "" ∧
    (requestParams (decodeQuery psCategoryPair)).filter (fun e => e.1 = "category")
      = [("category", "a")] :=
  ⟨by decide, by decide,
    (category_first_value_only psCategoryPair).1 "a" ["b"] (by decide) (by decide)⟩

end MirtechCatalog
